import Mathlib

/-
Shallow embedding of the h3i synchronous client driver loop
(src/h3i/src/client/sync_client.rs): the action-script engine
(`handle_actions`), the duration-wait gate (`check_duration_and_do_actions`),
the per-iteration sleep-deadline arbitration, the response-processing loop,
the outbound flush phase, and the closed-connection handling of `connect`.

Durations and instants are modelled as natural numbers (milliseconds are
irrelevant; only ordering and subtraction matter).  Frames are modelled as
natural numbers.  The quiche connection, the UDP socket and `parse_streams`
are external collaborators: each loop iteration reads their observable
outputs from an `IterInput` oracle record.
-/

namespace H3i

/-- Modelled from the spec (the `StreamEventType` enum lives in
`actions/h3.rs`, which is not part of the driver sources): an event kind is
`FrameArrived` with decoded frame content, `Finished`, or `Reset` with an
error code. -/
inductive StreamEventType where
  | FrameArrived (frame : Nat)
  | Finished
  | Reset (code : Nat)
deriving DecidableEq

/-- Modelled from the spec: a stream event pairs a stream id with an event
kind.  `WaitType::StreamEvent` expectations and `parse_streams` responses
are both values of this shape. -/
structure StreamEvent where
  stream_id : Nat
  event_type : StreamEventType
deriving DecidableEq

/-- Modelled from the spec (`WaitingFor` match rule, spec section 4.3):
stream-id equality plus event-kind/content match; equality of the two
values is the concrete deterministic instance of that rule. -/
def eventMatches (expected observed : StreamEvent) : Bool :=
  decide (expected.stream_id = observed.stream_id) &&
    decide (expected.event_type = observed.event_type)

/-- Modelled from the spec: `WaitingFor::add_wait` inserts unconditionally,
duplicates allowed; insertion at the tail keeps earliest-inserted first. -/
def add_wait (wf : List StreamEvent) (e : StreamEvent) : List StreamEvent :=
  wf ++ [e]

/-- Modelled from the spec: `WaitingFor::remove_wait` removes at most one
matching entry, deterministically the earliest-inserted one. -/
def remove_wait : List StreamEvent → StreamEvent → List StreamEvent
  | [], _ => []
  | e :: rest, obs =>
      if eventMatches e obs then rest else e :: remove_wait rest obs

/-- Modelled from the spec: `WaitingFor::clear_waits_on_stream` removes
every entry whose stream id equals the finished stream's id. -/
def clear_waits_on_stream (wf : List StreamEvent) (sid : Nat) :
    List StreamEvent :=
  wf.filter (fun e => decide (e.stream_id ≠ sid))

/-- Modelled from the spec (the `WaitType` enum lives in `actions/h3.rs`):
a wait is either a duration or a stream-event expectation. -/
inductive WaitType where
  | WaitDuration (d : Nat)
  | StreamEvent (e : StreamEvent)
deriving DecidableEq

/-- Script action, as dispatched by `handle_actions`: `FlushPackets` and
`Wait` are matched explicitly; every other variant of the Rust `Action`
enum falls through to `execute_action`, modelled here by the single
constructor `Send` carrying the emitted frame. -/
inductive Action where
  | FlushPackets
  | Wait (wait_type : WaitType)
  | Send (frame : Nat)
deriving DecidableEq

/-- Result of one `handle_actions` invocation: the returned idle wait, the
remaining action cursor, the updated `waiting_for` set, and the frames
passed to `execute_action`, in script order. -/
structure HAResult where
  idle_wait : Option Nat
  rest : List Action
  waiting_for : List StreamEvent
  sent : List Nat
deriving DecidableEq

/-- The consumption loop of `handle_actions` (sync_client.rs lines
489-505): consume actions in order; `FlushPackets` stops with no wait,
`Wait(WaitDuration d)` stops returning `some d`, `Wait(StreamEvent e)`
registers the expectation and stops, anything else is executed and
consumption continues. -/
def handleActionsGo : List Action → List StreamEvent → HAResult
  | [], wf => ⟨none, [], wf, []⟩
  | Action.FlushPackets :: rest, wf => ⟨none, rest, wf, []⟩
  | Action.Wait (WaitType.WaitDuration d) :: rest, wf =>
      ⟨some d, rest, wf, []⟩
  | Action.Wait (WaitType.StreamEvent e) :: rest, wf =>
      ⟨none, rest, add_wait wf e, []⟩
  | Action.Send f :: rest, wf =>
      let r := handleActionsGo rest wf
      ⟨r.idle_wait, r.rest, r.waiting_for, f :: r.sent⟩

/-- `handle_actions` (sync_client.rs lines 473-508): a no-op returning
`none` when `waiting_for` is non-empty, otherwise the consumption loop. -/
def handle_actions (actions : List Action) (wf : List StreamEvent) :
    HAResult :=
  if wf.isEmpty then handleActionsGo actions wf else ⟨none, actions, wf, []⟩

/-- The mutable locals of `connect` that `check_duration_and_do_actions`
receives by reference: the armed duration wait and its start instant, the
action cursor, and the `waiting_for` set. -/
structure EngineState where
  wait_duration : Option Nat
  wait_instant : Option Nat
  actions : List Action
  waiting_for : List StreamEvent
deriving DecidableEq

/-- `check_duration_and_do_actions` (sync_client.rs lines 398-442).  With
no armed timer it runs `handle_actions` and, if an idle wait is returned,
arms both `wait_duration` and `wait_instant := now`.  With an armed timer
it compares `now - wait_instant` against the (possibly decremented)
period; if elapsed it clears the timer, runs `handle_actions`, and on a new
idle wait sets only `wait_duration` — `wait_instant` keeps its old value,
exactly as in the source.  Returns the updated state and the frames
executed. -/
def check_duration_and_do_actions (now : Nat) (st : EngineState) :
    EngineState × List Nat :=
  match st.wait_duration with
  | none =>
      let r := handle_actions st.actions st.waiting_for
      match r.idle_wait with
      | some idle => (⟨some idle, some now, r.rest, r.waiting_for⟩, r.sent)
      | none => (⟨none, st.wait_instant, r.rest, r.waiting_for⟩, r.sent)
  | some period =>
      let t0 := st.wait_instant.getD 0
      if period ≤ now - t0 then
        let r := handle_actions st.actions st.waiting_for
        (⟨r.idle_wait, st.wait_instant, r.rest, r.waiting_for⟩, r.sent)
      else (st, [])

/-- The sleep-deadline arbitration at the top of the driver loop
(sync_client.rs lines 163-182).  Returns `(actual_sleep, new
wait_duration)`: when the transport timeout is strictly smaller than the
script wait, the script wait is decremented by the timeout and the driver
sleeps for the timeout; otherwise the smaller (or only) bound is used and
the script wait is left unchanged. -/
def computeSleep (wait_duration conn_timeout : Option Nat) :
    Option Nat × Option Nat :=
  match wait_duration, conn_timeout with
  | some wait, some timeout =>
      if timeout < wait then (some timeout, some (wait - timeout))
      else if wait < timeout then (some wait, some wait)
      else (some timeout, some wait)
  | none, some timeout => (some timeout, none)
  | some wait, none => (some wait, some wait)
  | none, none => (none, none)

/-- Modelled from the spec (refinement reference for the deadline claim):
`min(scriptWaitRemaining, transport.nextTimeout())` with an absent side
treated as unbounded, blocking with no deadline when both are absent. -/
def sleepDeadlineSpec : Option Nat → Option Nat → Option Nat
  | some a, some b => some (min a b)
  | some a, none => some a
  | none, some b => some b
  | none, none => none

/-- One response handled by the loop over `parse_streams` results
(sync_client.rs lines 284-288): a `Finished` event vacates every wait on
its stream id, any other event removes at most one matching wait. -/
def processResponseEvent (wf : List StreamEvent) (response : StreamEvent) :
    List StreamEvent :=
  match response.event_type with
  | StreamEventType.Finished => clear_waits_on_stream wf response.stream_id
  | _ => remove_wait wf response

/-- The whole response loop (sync_client.rs lines 280-291): folds
`processResponseEvent` over the parsed responses and sets the
`wait_cleared` flag for every response, whether or not it removed
anything. -/
def processResponses (responses : List StreamEvent)
    (wf : List StreamEvent) : List StreamEvent × Bool :=
  responses.foldl
    (fun acc response => (processResponseEvent acc.1 response, true))
    (wf, false)

/-- Outcome of one `socket.send_to` call during the flush phase. -/
inductive SockResult where
  | ok
  | wouldBlock
  | hardErr
deriving DecidableEq

/-- One step of the per-path flush loop (sync_client.rs lines 326-366), as
observed from the collaborators: the connection produced a datagram (with
the socket's send outcome), reported `Done`, or failed to produce one. -/
inductive FlushEvent where
  | datagram (sock : SockResult)
  | done
  | connErr
deriving DecidableEq

/-- The inner flush loop for one path (sync_client.rs lines 326-366).
Returns `(closeCalled, hardSockErr)`: a `send_on_path` hard error calls
`conn.close(false, 0x1, b"fail")` and stops this path; `Done` or a
would-block socket send stop this path quietly; a hard socket send error
aborts the whole session (second component true). -/
def flushPath : List FlushEvent → Bool × Bool
  | [] => (false, false)
  | FlushEvent.done :: _ => (false, false)
  | FlushEvent.connErr :: _ => (true, false)
  | FlushEvent.datagram SockResult.ok :: rest => flushPath rest
  | FlushEvent.datagram SockResult.wouldBlock :: _ => (false, false)
  | FlushEvent.datagram SockResult.hardErr :: _ => (false, true)

/-- The flush phase over all paths (sync_client.rs lines 320-368): paths
are flushed in order; a hard socket send error on any path returns the
IO error immediately, skipping the remaining paths. -/
def flushAll : List (List FlushEvent) → Bool × Bool
  | [] => (false, false)
  | p :: rest =>
      let r := flushPath p
      if r.2 then (r.1, true)
      else
        let rr := flushAll rest
        (r.1 || rr.1, rr.2)

/-- Observable outputs of the external collaborators (quiche connection,
UDP socket, `parse_streams`) during one driver-loop iteration.  `closed1`
and `established1` are `conn.is_closed()` / `conn.is_established()` after
the read phase; `closed2` and `established2` are the same queries after
the flush phase.  `pollElapsed` is the real time spent inside `poll`. -/
structure IterInput where
  conn_timeout : Option Nat
  pollElapsed : Nat
  recvHardErr : Bool
  closed1 : Bool
  established1 : Bool
  inEarlyData : Bool
  responses : List StreamEvent
  flushEvents : List (List FlushEvent)
  closed2 : Bool
  established2 : Bool
  statsVal : Nat
  pathStatsVal : Nat
  closeDetailsVal : Nat
deriving DecidableEq

/-- The mutable locals of `connect` that survive across loop iterations,
plus a model clock `now`.  `streams` is the per-stream frame log
accumulated by `handle_response_frame`. -/
structure DriverState where
  wait_duration : Option Nat
  wait_instant : Option Nat
  actions : List Action
  waiting_for : List StreamEvent
  app_proto_selected : Bool
  now : Nat
  streams : List (Nat × Nat)
deriving DecidableEq

/-- The terminal report built after the loop breaks (sync_client.rs lines
390-395): stream frame logs, transport stats, path stats, close details. -/
structure ConnectionSummary where
  stream_map : List (Nat × Nat)
  stats : Nat
  path_stats : Nat
  conn_close_details : Nat
deriving DecidableEq

/-- `ClientError` as used by `connect`: `HandshakeFail` for handshake and
construction failures, `Other` for socket-level IO failures. -/
inductive ClientError where
  | HandshakeFail
  | Other (msg : String)
deriving DecidableEq

/-- Result of one driver-loop iteration: continue with a new state (and
the frames executed this iteration), break with a summary, or return an
error.  `closedAbnormally` records whether this iteration called
`conn.close` during the flush phase before the error was returned. -/
inductive StepResult where
  | nextIter (s : DriverState) (sent : List Nat)
  | finished (summary : ConnectionSummary)
  | failed (e : ClientError) (closedAbnormally : Bool)
deriving DecidableEq

/-- Modelled from the spec (`parse_streams` and `handle_response_frame`
live outside the driver source): each `FrameArrived` response appends the
frame to that stream's log. -/
def framesOf (rs : List StreamEvent) : List (Nat × Nat) :=
  rs.filterMap (fun r =>
    match r.event_type with
    | StreamEventType.FrameArrived f => some (r.stream_id, f)
    | _ => none)

/-- The action/response block guarded by `app_proto_selected`
(sync_client.rs lines 270-307): a first `check_duration_and_do_actions`,
the response loop, and — only when `wait_cleared` was set — a second
`check_duration_and_do_actions` within the same iteration. -/
def activePhase (aps : Bool) (now : Nat) (st : EngineState)
    (responses : List StreamEvent) : EngineState × List Nat :=
  if aps then
    let c1 := check_duration_and_do_actions now st
    let pr := processResponses responses c1.1.waiting_for
    let st2 : EngineState :=
      ⟨c1.1.wait_duration, c1.1.wait_instant, c1.1.actions, pr.1⟩
    if pr.2 then
      let c2 := check_duration_and_do_actions now st2
      (c2.1, c1.2 ++ c2.2)
    else (st2, c1.2)
  else (st, [])

/-- The state evolution of one iteration up to the flush phase: the
sleep-deadline arbitration (which may decrement the script wait), the
model clock advance, the one-time `app_proto_selected` transition, the
active phase, and the frame-log update. -/
def activeResultState (s : DriverState) (inp : IterInput) :
    DriverState × List Nat :=
  let aps := s.app_proto_selected || inp.established1 || inp.inEarlyData
  let st1 : EngineState :=
    ⟨(computeSleep s.wait_duration inp.conn_timeout).2, s.wait_instant,
      s.actions, s.waiting_for⟩
  let ap := activePhase aps (s.now + inp.pollElapsed) st1 inp.responses
  let streams1 :=
    if aps then s.streams ++ framesOf inp.responses else s.streams
  (⟨ap.1.wait_duration, ap.1.wait_instant, ap.1.actions, ap.1.waiting_for,
      aps, s.now + inp.pollElapsed, streams1⟩,
    ap.2)

/-- One full iteration of the driver loop (sync_client.rs lines 162-388):
sleep arbitration and poll, socket read (a hard `recv` error aborts), the
first closed check (handshake failure if never established, else break
with the summary), the active phase, the flush phase (a hard socket send
error aborts), and the second closed check. -/
def driverStep (s : DriverState) (inp : IterInput) : StepResult :=
  if inp.recvHardErr then
    StepResult.failed (ClientError.Other "recv failed") false
  else if inp.closed1 then
    (if inp.established1 then
      StepResult.finished
        ⟨s.streams, inp.statsVal, inp.pathStatsVal, inp.closeDetailsVal⟩
    else StepResult.failed ClientError.HandshakeFail false)
  else
    let a := activeResultState s inp
    let fl := flushAll inp.flushEvents
    if fl.2 then StepResult.failed (ClientError.Other "send failed") fl.1
    else if inp.closed2 then
      (if inp.established2 then
        StepResult.finished
          ⟨a.1.streams, inp.statsVal, inp.pathStatsVal, inp.closeDetailsVal⟩
      else StepResult.failed ClientError.HandshakeFail fl.1)
    else StepResult.nextIter a.1 a.2

deriving instance DecidableEq for Except

/-- Outcome of running the driver loop on a finite oracle trace. -/
inductive ConnectOutcome where
  | result (r : Except ClientError ConnectionSummary)
  | outOfTrace (s : DriverState)
deriving DecidableEq

/-- The state of `connect`'s locals when the loop is entered. -/
def initDriverState (actions : List Action) : DriverState :=
  ⟨none, none, actions, [], false, 0, []⟩

/-- Iterates `driverStep` over the oracle trace, stopping at a break or an
error as `connect` does. -/
def runLoop : DriverState → List IterInput → ConnectOutcome
  | s, [] => ConnectOutcome.outOfTrace s
  | s, inp :: rest =>
      match driverStep s inp with
      | StepResult.nextIter s1 _ => runLoop s1 rest
      | StepResult.finished summary =>
          ConnectOutcome.result (Except.ok summary)
      | StepResult.failed e _ => ConnectOutcome.result (Except.error e)

/-- The construction phase and loop of `connect` (sync_client.rs lines
133-134 and 162-396): a `build_quiche_connection` failure is mapped by
`map_err` to `ClientError::HandshakeFail` before the loop runs; on success
the loop is entered with the initial locals. -/
def connectModel (buildOk : Bool) (actions : List Action)
    (trace : List IterInput) : ConnectOutcome :=
  if buildOk then runLoop (initDriverState actions) trace
  else ConnectOutcome.result (Except.error ClientError.HandshakeFail)

/-- True when the script contains a `Wait` action. -/
def containsWaitAction : List Action → Bool
  | [] => false
  | Action.Wait _ :: _ => true
  | _ :: rest => containsWaitAction rest

/-- True when the script contains a `Wait` or a `FlushPackets` action. -/
def containsWaitOrFlush : List Action → Bool
  | [] => false
  | Action.Send _ :: rest => containsWaitOrFlush rest
  | _ :: _ => true

/-- The mutual-exclusion invariant on the engine locals: an armed duration
wait implies an empty `waiting_for` set. -/
def engineInv (st : EngineState) : Prop :=
  st.wait_duration.isSome = true → st.waiting_for = []

/-- The same invariant on the driver state. -/
def driverInv (s : DriverState) : Prop :=
  s.wait_duration.isSome = true → s.waiting_for = []

/-- An iteration input in which every collaborator is quiet: no transport
timeout, no poll time, no errors, connection established and open, no
responses, nothing to flush. -/
def quietInput : IterInput :=
  { conn_timeout := none, pollElapsed := 0, recvHardErr := false,
    closed1 := false, established1 := true, inEarlyData := false,
    responses := [], flushEvents := [], closed2 := false,
    established2 := true, statsVal := 0, pathStatsVal := 0,
    closeDetailsVal := 0 }

/-- Initial state for the double-counted-wait run: the script is
`[Wait(200), Send 7]` and the connection is about to become established. -/
def c1State0 : DriverState :=
  ⟨none, none, [Action.Wait (WaitType.WaitDuration 200), Action.Send 7],
    [], false, 0, []⟩

/-- An iteration in which the transport's timeout is 50, the poll times
out after those 50 units, and no datagrams arrive. -/
def c1TimeoutInput : IterInput :=
  { quietInput with conn_timeout := some 50, pollElapsed := 50 }

/-- Driver state used for the flush-failure iteration. -/
def c2State : DriverState := ⟨none, none, [], [], true, 0, []⟩

/-- An iteration whose flush phase hits a hard socket send error on the
first datagram of the only path. -/
def c2Input : IterInput :=
  { quietInput with
      flushEvents := [[FlushEvent.datagram SockResult.hardErr]] }

/-- A reachable driver state with an armed script wait and no outstanding
stream-event expectations. -/
def c3State0 : DriverState := ⟨some 10, some 0, [], [], true, 0, []⟩

/-- Driver state for the sleep-arbitration scenario: a 200-unit script
wait armed at instant 0, one pending action. -/
def c4State : DriverState :=
  ⟨some 200, some 0, [Action.Send 7], [], true, 0, []⟩

/-- Driver state whose script contains a flush marker but no wait. -/
def c5State : DriverState :=
  ⟨none, none, [Action.FlushPackets, Action.Send 7], [], true, 0, []⟩

/-- Driver state for the every-event-sets-the-flag scenario: the script is
`[Wait(0), Send 5]`. -/
def c10State : DriverState :=
  ⟨none, none, [Action.Wait (WaitType.WaitDuration 0), Action.Send 5],
    [], true, 0, []⟩

/-- An iteration that parses one `Finished` event on stream 9 while no
expectation is outstanding. -/
def c10Input : IterInput :=
  { quietInput with responses := [⟨9, StreamEventType.Finished⟩] }

/-- An iteration with a 50-unit transport timeout and a 50-unit poll with
no datagrams, used for the sleep-arbitration scenario. -/
def c4Input : IterInput :=
  { quietInput with conn_timeout := some 50, pollElapsed := 50 }

theorem handleActionsGo_idle_some (actions : List Action)
    (wf : List StreamEvent) (d : Nat)
    (h : (handleActionsGo actions wf).idle_wait = some d) :
    (handleActionsGo actions wf).waiting_for = wf := by
  induction actions with
  | nil => simp [handleActionsGo] at h
  | cons a rest ih =>
      cases a with
      | FlushPackets => simp [handleActionsGo] at h
      | Send f =>
          simp only [handleActionsGo] at h ⊢
          exact ih h
      | Wait wt =>
          cases wt with
          | WaitDuration p => rfl
          | StreamEvent e => simp [handleActionsGo] at h

theorem handle_actions_idle_some (actions : List Action)
    (wf : List StreamEvent) (d : Nat)
    (h : (handle_actions actions wf).idle_wait = some d) :
    (handle_actions actions wf).waiting_for = [] := by
  unfold handle_actions at h ⊢
  by_cases hw : wf.isEmpty = true
  · rw [if_pos hw] at h ⊢
    rw [handleActionsGo_idle_some actions wf d h]
    exact List.isEmpty_iff.mp hw
  · rw [if_neg hw] at h
    simp at h

theorem check_duration_preserves_engineInv (now : Nat) (st : EngineState)
    (h : engineInv st) :
    engineInv (check_duration_and_do_actions now st).1 := by
  obtain ⟨wd, wi, acts, wf⟩ := st
  cases wd with
  | none =>
      rcases hidle : (handle_actions acts wf).idle_wait with _ | idle
      · intro hs
        simp [check_duration_and_do_actions, hidle] at hs
      · intro _
        have hw := handle_actions_idle_some acts wf idle hidle
        simpa [check_duration_and_do_actions, hidle] using hw
  | some period =>
      by_cases hel : period ≤ now - wi.getD 0
      · rcases hidle : (handle_actions acts wf).idle_wait with _ | idle
        · intro hs
          simp [check_duration_and_do_actions, hel, hidle] at hs
        · intro _
          have hw := handle_actions_idle_some acts wf idle hidle
          simpa [check_duration_and_do_actions, hel, hidle] using hw
      · intro _
        have hwf : wf = [] := h rfl
        simpa [check_duration_and_do_actions, hel] using hwf

theorem processResponseEvent_nil (r : StreamEvent) :
    processResponseEvent [] r = [] := by
  unfold processResponseEvent
  cases r.event_type <;> rfl

theorem processResponses_nil_aux (rs : List StreamEvent) (b : Bool) :
    (rs.foldl
      (fun acc response => (processResponseEvent acc.1 response, true))
      (([] : List StreamEvent), b)).1 = [] := by
  induction rs generalizing b with
  | nil => rfl
  | cons r rest ih =>
      simp only [List.foldl, processResponseEvent_nil]
      exact ih true

theorem processResponses_nil (rs : List StreamEvent) :
    (processResponses rs []).1 = [] :=
  processResponses_nil_aux rs false

theorem processResponses_flag_aux (rs : List StreamEvent)
    (p : List StreamEvent × Bool) :
    (rs.foldl
      (fun acc response => (processResponseEvent acc.1 response, true))
      p).2 = (p.2 || !rs.isEmpty) := by
  induction rs generalizing p with
  | nil => simp
  | cons r rest ih =>
      simp only [List.foldl, ih, List.isEmpty_cons, Bool.not_false,
        Bool.or_true, Bool.true_or]

theorem computeSleep_isSome (wd ct : Option Nat) :
    (computeSleep wd ct).2.isSome = wd.isSome := by
  cases wd with
  | none => cases ct <;> rfl
  | some w =>
      cases ct with
      | none => rfl
      | some t =>
          by_cases h1 : t < w
          · simp [computeSleep, h1]
          · by_cases h2 : w < t
            · simp [computeSleep, h1, h2]
            · simp [computeSleep, h1, h2]

theorem activePhase_preserves (aps : Bool) (now : Nat) (st : EngineState)
    (rs : List StreamEvent) (h : engineInv st) :
    engineInv (activePhase aps now st rs).1 := by
  unfold activePhase
  cases aps with
  | false => exact h
  | true =>
      simp only [if_pos]
      by_cases hpr :
          (processResponses rs
            (check_duration_and_do_actions now st).1.waiting_for).2 = true
      · rw [if_pos hpr]
        exact check_duration_preserves_engineInv now _
          (by
            intro hs
            have h1 := check_duration_preserves_engineInv now st h
            have h2 := h1 hs
            simp only [h2]
            exact processResponses_nil rs)
      · rw [if_neg hpr]
        intro hs
        have h1 := check_duration_preserves_engineInv now st h
        have h2 := h1 hs
        simp only [h2]
        exact processResponses_nil rs

theorem activeResultState_preserves (s : DriverState) (inp : IterInput)
    (h : driverInv s) : driverInv (activeResultState s inp).1 := by
  have hinv : engineInv
      ⟨(computeSleep s.wait_duration inp.conn_timeout).2, s.wait_instant,
        s.actions, s.waiting_for⟩ := by
    intro h2
    apply h
    rw [← computeSleep_isSome s.wait_duration inp.conn_timeout]
    exact h2
  have hp := activePhase_preserves
    (s.app_proto_selected || inp.established1 || inp.inEarlyData)
    (s.now + inp.pollElapsed) _ inp.responses hinv
  intro hs
  exact hp hs

theorem remove_wait_sublist (wf : List StreamEvent) (obs : StreamEvent) :
    List.Sublist (remove_wait wf obs) wf := by
  induction wf with
  | nil => exact List.Sublist.refl []
  | cons e rest ih =>
      unfold remove_wait
      by_cases h : eventMatches e obs = true
      · rw [if_pos h]
        exact (List.Sublist.refl rest).cons e
      · rw [if_neg h]
        exact ih.cons₂ e

theorem remove_wait_length (wf : List StreamEvent) (obs : StreamEvent) :
    wf.length ≤ (remove_wait wf obs).length + 1 := by
  induction wf with
  | nil => simp [remove_wait]
  | cons e rest ih =>
      unfold remove_wait
      by_cases h : eventMatches e obs = true
      · rw [if_pos h]; simp
      · rw [if_neg h]
        simpa using Nat.succ_le_succ ih

theorem handleActionsGo_all_sends (actions : List Action)
    (wf : List StreamEvent) (h : containsWaitOrFlush actions = false) :
    (handleActionsGo actions wf).idle_wait = none ∧
    (handleActionsGo actions wf).rest = [] ∧
    (handleActionsGo actions wf).waiting_for = wf := by
  induction actions with
  | nil => exact ⟨rfl, rfl, rfl⟩
  | cons a rest ih =>
      cases a with
      | Send f =>
          have h1 : containsWaitOrFlush rest = false := h
          obtain ⟨g1, g2, g3⟩ := ih h1
          exact ⟨g1, g2, g3⟩
      | FlushPackets => exact Bool.noConfusion h
      | Wait wt => exact Bool.noConfusion h

/-- Claim C1 (code bug): for the script `[Wait(200), Send 7]`, the `Wait`
is consumed (timer armed, remaining 200, start instant 0); two iterations
later, after two transport timeouts of 50 with no inbound datagrams,
`Send 7` is executed at model time 100 — only 100 < 200 time units after
the `Wait` was consumed.  The cause is in the source: the sleep
arbitration subtracts each transport timeout from `wait_duration`
(sync_client.rs lines 166-171) while `check_duration_and_do_actions`
still compares the decremented remainder against the elapsed time since
the original `wait_instant` (line 430), double-counting the slept time. -/
theorem C1_wait_duration_double_counted :
    driverStep c1State0 quietInput =
      StepResult.nextIter
        ⟨some 200, some 0, [Action.Send 7], [], true, 0, []⟩ [] ∧
    driverStep ⟨some 200, some 0, [Action.Send 7], [], true, 0, []⟩
        c1TimeoutInput =
      StepResult.nextIter
        ⟨some 150, some 0, [Action.Send 7], [], true, 50, []⟩ [] ∧
    driverStep ⟨some 150, some 0, [Action.Send 7], [], true, 50, []⟩
        c1TimeoutInput =
      StepResult.nextIter ⟨none, some 0, [], [], true, 100, []⟩ [7] ∧
    100 < 200 := by decide

/-- Claim C2 counterexample: a hard socket send error on the first
outbound datagram makes the driver return the IO error with
`closedAbnormally = false` — the transport was never asked to close
abnormally first, contrary to the claim (`conn.close` is only called on
the `send_on_path` error arm, sync_client.rs line 346, which does not
abort; the `socket.send_to` error arm, line 361, aborts without
closing). -/
theorem C2_hard_send_error_counterexample :
    driverStep c2State c2Input =
      StepResult.failed (ClientError.Other "send failed") false ∧
    flushAll [[FlushEvent.datagram SockResult.hardErr]] = (false, true) := by
  decide

/-- Claim C2 as amended: during the flush phase a hard error from
`conn.send_on_path` triggers an abnormal transport close and stops
flushing that path without aborting the session, while a hard error from
`socket.send_to` aborts the session with an IO error without asking the
transport to close first. -/
theorem C2_flush_error_paths :
    (∀ evs, flushPath (FlushEvent.connErr :: evs) = (true, false)) ∧
    (∀ evs, flushPath (FlushEvent.datagram SockResult.hardErr :: evs) =
        (false, true)) ∧
    (∀ (s : DriverState) (ct : Option Nat) (pe : Nat) (e1 early : Bool)
        (rs : List StreamEvent) (c2 e2 : Bool) (st ps cd : Nat),
      driverStep s
          { conn_timeout := ct, pollElapsed := pe, recvHardErr := false,
            closed1 := false, established1 := e1, inEarlyData := early,
            responses := rs,
            flushEvents := [[FlushEvent.datagram SockResult.hardErr]],
            closed2 := c2, established2 := e2, statsVal := st,
            pathStatsVal := ps, closeDetailsVal := cd } =
        StepResult.failed (ClientError.Other "send failed") false) :=
  ⟨fun _ => rfl, fun _ => rfl,
    fun _ _ _ _ _ _ _ _ _ _ _ => rfl⟩

/-- Claim C3: at most one blocking condition holds at any time.  The
engine arms at most one per invocation (an armed duration wait implies
`waiting_for` was left untouched and empty), `check_duration_and_do_actions`
preserves the mutual-exclusion invariant, and so does every driver-loop
iteration that continues. -/
theorem C3_at_most_one_blocking_condition :
    (∀ (actions : List Action) (wf : List StreamEvent) (d : Nat),
        (handle_actions actions wf).idle_wait = some d →
          (handle_actions actions wf).waiting_for = []) ∧
    (∀ (now : Nat) (st : EngineState), engineInv st →
        engineInv (check_duration_and_do_actions now st).1) ∧
    (∀ (s : DriverState) (inp : IterInput) (s1 : DriverState)
        (sent : List Nat), driverInv s →
        driverStep s inp = StepResult.nextIter s1 sent → driverInv s1) := by
  refine ⟨handle_actions_idle_some, check_duration_preserves_engineInv, ?_⟩
  intro s inp s1 sent hinv hstep
  by_cases hr : inp.recvHardErr = true
  · simp [driverStep, hr] at hstep
  · by_cases hc1 : inp.closed1 = true
    · by_cases he1 : inp.established1 = true
      · simp [driverStep, hr, hc1, he1] at hstep
      · simp [driverStep, hr, hc1, he1] at hstep
    · by_cases hfl : (flushAll inp.flushEvents).2 = true
      · simp [driverStep, hr, hc1, hfl] at hstep
      · by_cases hc2 : inp.closed2 = true
        · by_cases he2 : inp.established2 = true
          · simp [driverStep, hr, hc1, hfl, hc2, he2] at hstep
          · simp [driverStep, hr, hc1, hfl, hc2, he2] at hstep
        · simp [driverStep, hr, hc1, hfl, hc2] at hstep
          obtain ⟨h1, _⟩ := hstep
          rw [← h1]
          exact activeResultState_preserves s inp hinv

/-- Claim C3 witness: the engine part applied to the one-wait script, and
the step part applied to a concrete state with an armed duration wait. -/
theorem C3_at_most_one_blocking_condition_witness :
    (handle_actions [Action.Wait (WaitType.WaitDuration 5)] []).waiting_for
        = [] ∧
    driverInv ⟨some 10, some 0, [], [], true, 0, []⟩ :=
  ⟨C3_at_most_one_blocking_condition.1
      [Action.Wait (WaitType.WaitDuration 5)] [] 5 (by decide),
    C3_at_most_one_blocking_condition.2.2 c3State0 quietInput
      ⟨some 10, some 0, [], [], true, 0, []⟩ [] (fun _ => rfl) (by decide)⟩

/-- Claim C4: the sleep deadline equals
`min(scriptWaitRemaining, transport.nextTimeout())` with an absent side
unbounded (none when both absent); when the transport timeout is the
strictly smaller bound the script wait is decremented by it and otherwise
preserved; and in the concrete 200-versus-50 scenario the driver sleeps
50 and the remaining script wait after the empty wakeup is 150 — reduced,
not cleared or reset. -/
theorem C4_sleep_deadline_min_and_decrement :
    (∀ (wd ct : Option Nat),
        (computeSleep wd ct).1 = sleepDeadlineSpec wd ct) ∧
    (∀ (w t : Nat), (computeSleep (some w) (some t)).2 =
        some (if t < w then w - t else w)) ∧
    computeSleep (some 200) (some 50) = (some 50, some 150) ∧
    driverStep c4State c4Input =
      StepResult.nextIter
        ⟨some 150, some 0, [Action.Send 7], [], true, 50, []⟩ [] := by
  refine ⟨?_, ?_, by decide, by decide⟩
  · intro wd ct
    cases wd with
    | none => cases ct <;> rfl
    | some w =>
        cases ct with
        | none => rfl
        | some t =>
            by_cases h1 : t < w
            · simp [computeSleep, sleepDeadlineSpec, h1,
                Nat.min_eq_right (Nat.le_of_lt h1)]
            · by_cases h2 : w < t
              · simp [computeSleep, sleepDeadlineSpec, h1, h2,
                  Nat.min_eq_left (Nat.le_of_lt h2)]
              · have heq : w = t :=
                  Nat.le_antisymm (Nat.le_of_not_lt h1) (Nat.le_of_not_lt h2)
                simp [computeSleep, sleepDeadlineSpec, h1, h2, heq]
  · intro w t
    by_cases h1 : t < w
    · simp [computeSleep, h1]
    · by_cases h2 : w < t
      · simp [computeSleep, h1, h2]
      · simp [computeSleep, h1, h2]

/-- Claim C5 counterexample: the script `[FlushPackets, Send 7]` contains
no `Wait`, the session is active, no wait is armed, yet after one full
driver-loop iteration the cursor still holds `Send 7` — the sequence is
not consumed within a single iteration, because `FlushPackets` stops
consumption and no second engine invocation happens without a parsed
response. -/
theorem C5_flush_marker_counterexample :
    containsWaitAction [Action.FlushPackets, Action.Send 7] = false ∧
    driverStep c5State quietInput =
      StepResult.nextIter
        ⟨none, none, [Action.Send 7], [], true, 0, []⟩ [] ∧
    ([Action.Send 7] : List Action) ≠ [] := by decide

/-- Claim C5 as amended: for every script containing neither `Wait` nor
`FlushPackets`, one invocation of the engine entry point (hence a single
active driver-loop iteration) consumes the entire action sequence: the
cursor is left empty, no wait is armed, and `WaitingFor` stays empty. -/
theorem C5_no_wait_no_flush_fully_consumed (now : Nat)
    (actions : List Action) (h : containsWaitOrFlush actions = false) :
    (check_duration_and_do_actions now ⟨none, none, actions, []⟩).1 =
      ⟨none, none, [], []⟩ := by
  obtain ⟨h1, h2, h3⟩ := handleActionsGo_all_sends actions [] h
  simp [check_duration_and_do_actions, handle_actions, h1, h2, h3]

/-- Claim C5 amended witness at the one-send script. -/
theorem C5_no_wait_no_flush_fully_consumed_witness :
    containsWaitOrFlush [Action.Send 3] = false ∧
    (check_duration_and_do_actions 0 ⟨none, none, [Action.Send 3], []⟩).1 =
      ⟨none, none, [], []⟩ :=
  ⟨by decide,
    C5_no_wait_no_flush_fully_consumed 0 [Action.Send 3] (by decide)⟩

/-- Claim C6: whenever the transport reports the session closed (at
either closed check of the iteration), the driver returns a
handshake-failure error when the session is not established, and
otherwise stops the loop with a `ConnectionSummary` carrying the
per-stream frame log, the transport stats, the path stats, and the close
details. -/
theorem C6_closed_connection_handling :
    (∀ (s : DriverState) (ct : Option Nat) (pe : Nat)
        (e1 early c2 e2 : Bool) (rs : List StreamEvent)
        (fe : List (List FlushEvent)) (st ps cd : Nat),
      driverStep s
          { conn_timeout := ct, pollElapsed := pe, recvHardErr := false,
            closed1 := true, established1 := e1, inEarlyData := early,
            responses := rs, flushEvents := fe, closed2 := c2,
            established2 := e2, statsVal := st, pathStatsVal := ps,
            closeDetailsVal := cd } =
        (if e1 then StepResult.finished ⟨s.streams, st, ps, cd⟩
         else StepResult.failed ClientError.HandshakeFail false)) ∧
    (∀ (s : DriverState) (ct : Option Nat) (pe : Nat) (e1 early e2 : Bool)
        (st ps cd : Nat),
      driverStep s
          { conn_timeout := ct, pollElapsed := pe, recvHardErr := false,
            closed1 := false, established1 := e1, inEarlyData := early,
            responses := [], flushEvents := [], closed2 := true,
            established2 := e2, statsVal := st, pathStatsVal := ps,
            closeDetailsVal := cd } =
        (if e2 then StepResult.finished ⟨s.streams, st, ps, cd⟩
         else StepResult.failed ClientError.HandshakeFail false)) := by
  constructor
  · intro s ct pe e1 early c2 e2 rs fe st ps cd
    rfl
  · intro s ct pe e1 early e2 st ps cd
    cases e2 <;>
      simp [driverStep, activeResultState, flushAll, framesOf]

/-- Claim C7: the action engine is a no-op on a non-empty `WaitingFor`
set; with it empty it consumes actions in script order — `Send` executes
and continues, `FlushPackets` stops without arming anything, either kind
of `Wait` stops consumption, and an exhausted cursor makes every
invocation an idempotent no-op. -/
theorem C7_engine_invocation_contract :
    (∀ (actions : List Action) (e : StreamEvent) (wf : List StreamEvent),
        handle_actions actions (e :: wf) = ⟨none, actions, e :: wf, []⟩) ∧
    (∀ rest, handle_actions (Action.FlushPackets :: rest) [] =
        ⟨none, rest, [], []⟩) ∧
    (∀ d rest, handle_actions
        (Action.Wait (WaitType.WaitDuration d) :: rest) [] =
        ⟨some d, rest, [], []⟩) ∧
    (∀ e rest, handle_actions
        (Action.Wait (WaitType.StreamEvent e) :: rest) [] =
        ⟨none, rest, add_wait [] e, []⟩) ∧
    (∀ f rest, handle_actions (Action.Send f :: rest) [] =
        ⟨(handle_actions rest []).idle_wait, (handle_actions rest []).rest,
          (handle_actions rest []).waiting_for,
          f :: (handle_actions rest []).sent⟩) ∧
    (∀ wf, handle_actions [] wf = ⟨none, [], wf, []⟩) :=
  ⟨fun _ _ _ => rfl, fun _ => rfl, fun _ _ => rfl, fun _ _ => rfl,
    fun _ _ => rfl, fun wf => by cases wf <;> rfl⟩

/-- Claim C8: a decoded `Finished` event on stream `sid` vacates every
outstanding expectation whose stream id is `sid` (a filter on stream id
alone, regardless of whether the entry could ever match), while every
other decoded event goes through `remove_wait`, which removes at most one
entry (the result is a sublist whose length drops by at most one). -/
theorem C8_finished_vacates_stream_waits :
    (∀ (wf : List StreamEvent) (sid : Nat),
        processResponseEvent wf ⟨sid, StreamEventType.Finished⟩ =
          wf.filter (fun e => decide (e.stream_id ≠ sid))) ∧
    (∀ (wf : List StreamEvent) (sid f : Nat),
        processResponseEvent wf ⟨sid, StreamEventType.FrameArrived f⟩ =
          remove_wait wf ⟨sid, StreamEventType.FrameArrived f⟩) ∧
    (∀ (wf : List StreamEvent) (sid c : Nat),
        processResponseEvent wf ⟨sid, StreamEventType.Reset c⟩ =
          remove_wait wf ⟨sid, StreamEventType.Reset c⟩) ∧
    (∀ (wf : List StreamEvent) (obs : StreamEvent),
        List.Sublist (remove_wait wf obs) wf ∧
          wf.length ≤ (remove_wait wf obs).length + 1) :=
  ⟨fun _ _ => rfl, fun _ _ _ => rfl, fun _ _ _ => rfl,
    fun wf obs => ⟨remove_wait_sublist wf obs, remove_wait_length wf obs⟩⟩

/-- Claim C9 counterexample: when construction fails, `connect` returns
`ClientError::HandshakeFail` — exactly the error value the loop returns
for a genuine handshake failure (closed before established) — so the
surfaced failure is not a typed failure distinct from the handshake
failure (sync_client.rs lines 133-134 map the construction error with
`map_err` to `HandshakeFail`). -/
theorem C9_construction_failure_counterexample :
    connectModel false [Action.Send 1] [quietInput] =
      ConnectOutcome.result (Except.error ClientError.HandshakeFail) ∧
    runLoop (initDriverState [])
        [{ quietInput with closed1 := true, established1 := false }] =
      ConnectOutcome.result (Except.error ClientError.HandshakeFail) := by
  decide

/-- Claim C9 as amended: a construction failure is surfaced before any
loop iteration runs (the result does not depend on the iteration trace),
but as `ClientError::HandshakeFail` — the same variant used for handshake
failures, not a distinct construction-failure variant. -/
theorem C9_construction_failure_amended (actions : List Action)
    (trace : List IterInput) :
    connectModel false actions trace =
      ConnectOutcome.result (Except.error ClientError.HandshakeFail) := rfl

/-- Claim C10: the `wait_cleared` flag is set for every parsed response,
not only for those that removed an expectation, so one parsed event
suffices for a second engine invocation in the same iteration: with
script `[Wait(0), Send 5]` and a single non-matching `Finished` response
(no expectation outstanding), `Send 5` is executed within the same
iteration. -/
theorem C10_wait_cleared_for_every_event :
    (∀ (rs wf : List StreamEvent),
        (processResponses rs wf).2 = !rs.isEmpty) ∧
    driverStep c10State c10Input =
      StepResult.nextIter ⟨none, some 0, [], [], true, 0, []⟩ [5] :=
  ⟨fun rs wf => by
      unfold processResponses
      rw [processResponses_flag_aux rs (wf, false)]
      simp,
    by decide⟩

end H3i
